import Mathlib

/-!
# Verification of the `core-js-101` CSS selector builder and rectangle helper

Shallow embedding of `src/05-objects-tasks.js`.  JavaScript strings are
modelled as `List Char` (the buffer of the builder and every value passed by
the caller); `str.includes(c)` for a one-character pattern becomes list
membership and `str.includes("::")` becomes the infix relation `<:+:` on
lists.  The two error messages thrown by the source are modelled verbatim as
the `String` payload of an `Except` value, mirroring the fact that the source
raises plain `Error` objects distinguished only by their message.
-/

/-- State of one `MyCssSelectorBuilder` instance from the source:
the accumulated selector text `this.str` and the flag `this.hasElement`. -/
structure MyCssSelectorBuilder where
  str : List Char
  hasElement : Bool
deriving DecidableEq

/-- `new MyCssSelectorBuilder()`: empty buffer, flag cleared. -/
def MyCssSelectorBuilder.new : MyCssSelectorBuilder := ⟨[], false⟩

/-- The message the source throws for cardinality violations
(what the spec calls `DuplicateSelectorError`). -/
def duplicateSelectorError : String :=
  "Element, id and pseudo-element should not occur more then one time inside the selector"

/-- The message the source throws for ordering violations
(what the spec calls `OrderError`). -/
def orderError : String :=
  "Selector parts should be arranged in the following order: element, id, class, attribute, pseudo-class, pseudo-element"

/-- `stringify()`: returns the current buffer and resets it (only the buffer). -/
def MyCssSelectorBuilder.stringify (b : MyCssSelectorBuilder) :
    List Char × MyCssSelectorBuilder :=
  (b.str, { b with str := [] })

/-- `element(value)`: duplicate check on the flag, order check on buffer
non-emptiness (`if (this.str)`), then appends `value` and sets the flag. -/
def MyCssSelectorBuilder.element (b : MyCssSelectorBuilder) (value : List Char) :
    Except String MyCssSelectorBuilder :=
  if b.hasElement then .error duplicateSelectorError
  else if b.str ≠ [] then .error orderError
  else .ok { b with hasElement := true, str := b.str ++ value }

/-- `id(value)`: checks `includes('#')`, then `includes('.')`, `includes('[')`,
`includes(':')`, `includes('::')`, then appends `#value`. -/
def MyCssSelectorBuilder.id (b : MyCssSelectorBuilder) (value : List Char) :
    Except String MyCssSelectorBuilder :=
  if '#' ∈ b.str then .error duplicateSelectorError
  else if '.' ∈ b.str then .error orderError
  else if '[' ∈ b.str then .error orderError
  else if ':' ∈ b.str then .error orderError
  else if [':', ':'] <:+: b.str then .error orderError
  else .ok { b with str := b.str ++ '#' :: value }

/-- `class(value)`: checks `includes('[')`, `includes(':')`, `includes('::')`,
then appends `.value`. -/
def MyCssSelectorBuilder.«class» (b : MyCssSelectorBuilder) (value : List Char) :
    Except String MyCssSelectorBuilder :=
  if '[' ∈ b.str then .error orderError
  else if ':' ∈ b.str then .error orderError
  else if [':', ':'] <:+: b.str then .error orderError
  else .ok { b with str := b.str ++ '.' :: value }

/-- `attr(value)`: checks `includes(':') || includes('::')`, then appends
`[value]`. -/
def MyCssSelectorBuilder.attr (b : MyCssSelectorBuilder) (value : List Char) :
    Except String MyCssSelectorBuilder :=
  if ':' ∈ b.str ∨ [':', ':'] <:+: b.str then .error orderError
  else .ok { b with str := b.str ++ '[' :: (value ++ [']']) }

/-- `pseudoClass(value)`: checks `includes('::')`, then appends `:value`. -/
def MyCssSelectorBuilder.pseudoClass (b : MyCssSelectorBuilder) (value : List Char) :
    Except String MyCssSelectorBuilder :=
  if [':', ':'] <:+: b.str then .error orderError
  else .ok { b with str := b.str ++ ':' :: value }

/-- `pseudoElement(value)`: checks `includes('::')` (duplicate error), then
appends `::value`.  Note: the flag `hasElement` is not touched. -/
def MyCssSelectorBuilder.pseudoElement (b : MyCssSelectorBuilder) (value : List Char) :
    Except String MyCssSelectorBuilder :=
  if [':', ':'] <:+: b.str then .error duplicateSelectorError
  else .ok { b with str := b.str ++ ':' :: ':' :: value }

/-- State of the facade object `cssSelectorBuilder`: its own `str` field. -/
structure CssSelectorBuilder where
  str : List Char
deriving DecidableEq

/-- The facade literal `cssSelectorBuilder` with `str: ''`. -/
def cssSelectorBuilder : CssSelectorBuilder := { str := [] }

/-- Facade `stringify()`: returns the facade buffer and resets it. -/
def CssSelectorBuilder.stringify (f : CssSelectorBuilder) :
    List Char × CssSelectorBuilder :=
  (f.str, { f with str := [] })

/-- Facade `element(value)`: fresh builder, then `element`. -/
def CssSelectorBuilder.element (value : List Char) : Except String MyCssSelectorBuilder :=
  MyCssSelectorBuilder.new.element value

/-- Facade `id(value)`: fresh builder, then `id`. -/
def CssSelectorBuilder.id (value : List Char) : Except String MyCssSelectorBuilder :=
  MyCssSelectorBuilder.new.id value

/-- Facade `class(value)`: fresh builder, then `class`. -/
def CssSelectorBuilder.«class» (value : List Char) : Except String MyCssSelectorBuilder :=
  MyCssSelectorBuilder.new.«class» value

/-- Facade `attr(value)`: fresh builder, then `attr`. -/
def CssSelectorBuilder.attr (value : List Char) : Except String MyCssSelectorBuilder :=
  MyCssSelectorBuilder.new.attr value

/-- Facade `pseudoClass(value)`: fresh builder, then `pseudoClass`. -/
def CssSelectorBuilder.pseudoClass (value : List Char) : Except String MyCssSelectorBuilder :=
  MyCssSelectorBuilder.new.pseudoClass value

/-- Facade `pseudoElement(value)`: fresh builder, then `pseudoElement`. -/
def CssSelectorBuilder.pseudoElement (value : List Char) : Except String MyCssSelectorBuilder :=
  MyCssSelectorBuilder.new.pseudoElement value

/-- Facade `combine(selector1, combinator, selector2)`: stringifies both
selectors (resetting them), appends `` `${a} ${combinator} ${b}` `` onto the
facade's own buffer, and returns the updated facade together with the two
reset builders. -/
def CssSelectorBuilder.combine (f : CssSelectorBuilder)
    (selector1 : MyCssSelectorBuilder) (combinator : List Char)
    (selector2 : MyCssSelectorBuilder) :
    CssSelectorBuilder × MyCssSelectorBuilder × MyCssSelectorBuilder :=
  let a := selector1.stringify
  let b := selector2.stringify
  ({ f with str := f.str ++ a.1 ++ ' ' :: combinator ++ ' ' :: b.1 }, a.2, b.2)

/-- The six selector-part kinds a caller can invoke. -/
inductive Kind where
  | element
  | id
  | «class»
  | attr
  | pseudoClass
  | pseudoElement
deriving DecidableEq

/-- Position of a kind in the canonical sequence
element, id, class, attribute, pseudo-class, pseudo-element. -/
def Kind.rank : Kind → Nat
  | .element => 0
  | .id => 1
  | .«class» => 2
  | .attr => 3
  | .pseudoClass => 4
  | .pseudoElement => 5

/-- Kinds that may repeat inside one fragment. -/
def Kind.repeatable : Kind → Bool
  | .«class» => true
  | .attr => true
  | .pseudoClass => true
  | _ => false

/-- `canonStep a b`: kind `a` may occur (strictly) before kind `b` in one
fragment: either `a` is an earlier stage than `b`, or they are the same
repeatable stage.  A kind list is a canonical chain exactly when it is
`Pairwise canonStep`: stages appear in the fixed order and element, id and
pseudo-element each occur at most once. -/
def canonStep (a b : Kind) : Prop :=
  a.rank < b.rank ∨ (a = b ∧ a.repeatable = true)

instance : DecidableRel canonStep := fun a b => by
  unfold canonStep
  infer_instance

/-- Dispatch one call of the given kind on a builder. -/
def runCall (b : MyCssSelectorBuilder) : Kind × List Char → Except String MyCssSelectorBuilder
  | (.element, v) => b.element v
  | (.id, v) => b.id v
  | (.«class», v) => b.«class» v
  | (.attr, v) => b.attr v
  | (.pseudoClass, v) => b.pseudoClass v
  | (.pseudoElement, v) => b.pseudoElement v

/-- Run a chain of calls on a builder, stopping at the first error (an error
thrown in JavaScript aborts the call chain). -/
def runChain (b : MyCssSelectorBuilder) : List (Kind × List Char) → Except String MyCssSelectorBuilder
  | [] => .ok b
  | c :: cs =>
    match runCall b c with
    | .error e => .error e
    | .ok b2 => runChain b2 cs

/-- The text one successful call appends to the buffer. -/
def renderToken : Kind → List Char → List Char
  | .element, v => v
  | .id, v => '#' :: v
  | .«class», v => '.' :: v
  | .attr, v => '[' :: (v ++ [']'])
  | .pseudoClass, v => ':' :: v
  | .pseudoElement, v => ':' :: ':' :: v

/-- Concatenation, in call order, of the tokens of a chain with their
documented separators. -/
def render (cs : List (Kind × List Char)) : List Char :=
  (cs.map fun c => renderToken c.1 c.2).flatten

/-- A value that cannot interfere with the substring-based guards of the
builder: non-empty and free of the four marker characters. -/
def CleanValue (v : List Char) : Prop :=
  v ≠ [] ∧ '#' ∉ v ∧ '.' ∉ v ∧ '[' ∉ v ∧ ':' ∉ v

instance : DecidablePred CleanValue := fun v => by
  unfold CleanValue
  infer_instance

/-- No two adjacent colons occur in the list. -/
def NoColonPair (l : List Char) : Prop :=
  l.Chain' fun a b => ¬(a = ':' ∧ b = ':')

/-- The last character, if any, is not a colon. -/
def ColonTail (l : List Char) : Prop :=
  ∀ x ∈ l.getLast?, x ≠ ':'

/-- Markers present in a builder's state are accounted for by the kinds run so
far: each kind leaves a permanent trace (flag or marker character). -/
def Tracks (b : MyCssSelectorBuilder) (ks : List Kind) : Prop :=
  (Kind.element ∈ ks → b.hasElement = true) ∧
  (Kind.id ∈ ks → '#' ∈ b.str) ∧
  (Kind.«class» ∈ ks → '.' ∈ b.str) ∧
  (Kind.attr ∈ ks → '[' ∈ b.str) ∧
  (Kind.pseudoClass ∈ ks → ':' ∈ b.str) ∧
  (Kind.pseudoElement ∈ ks → [':', ':'] <:+: b.str)

/-- Converse bookkeeping for clean chains: every trace in the builder's state
comes from a kind recorded in `ks`, and while no pseudo-element has been
written the buffer has no adjacent colons and does not end in a colon. -/
def ContentOK (b : MyCssSelectorBuilder) (ks : List Kind) : Prop :=
  (b.hasElement = true → Kind.element ∈ ks) ∧
  (b.str ≠ [] → ks ≠ []) ∧
  ('#' ∈ b.str → Kind.id ∈ ks) ∧
  ('.' ∈ b.str → Kind.«class» ∈ ks) ∧
  ('[' ∈ b.str → Kind.attr ∈ ks) ∧
  (':' ∈ b.str → Kind.pseudoClass ∈ ks ∨ Kind.pseudoElement ∈ ks) ∧
  (Kind.pseudoElement ∉ ks → NoColonPair b.str ∧ ColonTail b.str)

/-- `function Rectangle(width, height)` with fields assigned as in the source
(`this.height = height; this.width = width`).  JavaScript numbers are
modelled as integers; the one arithmetic operation involved (multiplication)
is exact. -/
structure Rectangle where
  height : Int
  width : Int
deriving DecidableEq

/-- `new Rectangle(width, height)`. -/
def Rectangle.new (width height : Int) : Rectangle :=
  { height := height, width := width }

/-- `getArea()` returns `this.height * this.width`. -/
def Rectangle.getArea (r : Rectangle) : Int :=
  r.height * r.width

theorem colon_mem_of_pair {l : List Char} (h : [':', ':'] <:+: l) : ':' ∈ l :=
  h.subset (by simp)

/-- Helper: the order-violation branch of `id`, reached whenever no `#` is in
the buffer but one of the later-stage markers is. -/
theorem id_order_error (b : MyCssSelectorBuilder) (v : List Char)
    (h1 : '#' ∉ b.str) (h2 : '.' ∈ b.str ∨ '[' ∈ b.str ∨ ':' ∈ b.str) :
    b.id v = .error orderError := by
  unfold MyCssSelectorBuilder.id
  rw [if_neg h1]
  by_cases hd : '.' ∈ b.str
  · rw [if_pos hd]
  · rw [if_neg hd]
    by_cases hb : '[' ∈ b.str
    · rw [if_pos hb]
    · rw [if_neg hb]
      have hc : ':' ∈ b.str := by tauto
      rw [if_pos hc]

/-- C7: `stringify()` never raises (it is a total function of the state): it
returns the current buffer text and resets the buffer, touching nothing else,
so a second `stringify()` with no intervening mutator returns the empty
string. -/
theorem stringify_spec (b : MyCssSelectorBuilder) :
    b.stringify = (b.str, ⟨[], b.hasElement⟩) ∧ ((b.stringify).2.stringify).1 = [] :=
  ⟨rfl, rfl⟩

/-- C4: `element(value)` raises the duplicate error when an element token is
already present (flag set), raises the order error when the flag is clear but
the buffer is non-empty, and otherwise appends `value` verbatim and sets the
flag; in particular a second `element` call on the same builder always fails
with the duplicate error. -/
theorem element_spec (b : MyCssSelectorBuilder) (v w : List Char) :
    (b.hasElement = true → b.element v = .error duplicateSelectorError) ∧
    (b.hasElement = false → b.str ≠ [] → b.element v = .error orderError) ∧
    (b.hasElement = false → b.str = [] → b.element v = .ok ⟨v, true⟩) ∧
    (∀ b2, b.element v = .ok b2 → b2.element w = .error duplicateSelectorError) := by
  refine ⟨?_, ?_, ?_, ?_⟩
  · intro h
    simp [MyCssSelectorBuilder.element, h]
  · intro h1 h2
    simp [MyCssSelectorBuilder.element, h1, h2]
  · intro h1 h2
    simp [MyCssSelectorBuilder.element, h1, h2]
  · intro b2 h
    unfold MyCssSelectorBuilder.element at h
    split_ifs at h with h1 h2
    injection h with h3
    rw [← h3]
    simp [MyCssSelectorBuilder.element]

/-- Witness for `element_spec` at concrete inputs. -/
theorem element_spec_witness :
    MyCssSelectorBuilder.new.element "div".toList = .ok ⟨"div".toList, true⟩ ∧
    (MyCssSelectorBuilder.mk "div".toList true).element "p".toList
      = .error duplicateSelectorError :=
  ⟨(element_spec MyCssSelectorBuilder.new "div".toList "p".toList).2.2.1 rfl rfl,
   (element_spec (MyCssSelectorBuilder.mk "div".toList true) "p".toList "p".toList).1 rfl⟩

/-- C5 (amended): `id(value)` raises the duplicate error iff the buffer
contains `#`, otherwise the order error iff the buffer contains `.`, `[` or
`:`, otherwise appends `#value`; calling `id` after a successful
`class`/`attr`/`pseudoClass`/`pseudoElement` call fails with the order error
provided no `#` is present in the buffer or in that call's value (with a `#`
present it fails with the duplicate error instead, see the counterexample). -/
theorem id_spec (b : MyCssSelectorBuilder) (v : List Char) :
    ('#' ∈ b.str → b.id v = .error duplicateSelectorError) ∧
    ('#' ∉ b.str → ('.' ∈ b.str ∨ '[' ∈ b.str ∨ ':' ∈ b.str) → b.id v = .error orderError) ∧
    ('#' ∉ b.str → '.' ∉ b.str → '[' ∉ b.str → ':' ∉ b.str →
      b.id v = .ok { b with str := b.str ++ '#' :: v }) ∧
    (∀ k, (k = Kind.«class» ∨ k = Kind.attr ∨ k = Kind.pseudoClass ∨ k = Kind.pseudoElement) →
      ∀ u b2, '#' ∉ b.str → '#' ∉ u → runCall b (k, u) = .ok b2 →
        b2.id v = .error orderError) := by
  refine ⟨?_, ?_, ?_, ?_⟩
  · intro h
    simp [MyCssSelectorBuilder.id, h]
  · exact id_order_error b v
  · intro h1 h2 h3 h4
    have h5 : ¬([':', ':'] <:+: b.str) := fun hin => h4 (colon_mem_of_pair hin)
    simp [MyCssSelectorBuilder.id, h1, h2, h3, h4, h5]
  · rintro k (rfl | rfl | rfl | rfl) u b2 hb hu hcall
    · simp only [runCall] at hcall
      unfold MyCssSelectorBuilder.«class» at hcall
      split_ifs at hcall
      injection hcall with h3
      rw [← h3]
      refine id_order_error _ v ?_ (Or.inl ?_)
      · simp [hb, hu]
      · simp
    · simp only [runCall] at hcall
      unfold MyCssSelectorBuilder.attr at hcall
      split_ifs at hcall
      injection hcall with h3
      rw [← h3]
      refine id_order_error _ v ?_ (Or.inr (Or.inl ?_))
      · simp [hb, hu]
      · simp
    · simp only [runCall] at hcall
      unfold MyCssSelectorBuilder.pseudoClass at hcall
      split_ifs at hcall
      injection hcall with h3
      rw [← h3]
      refine id_order_error _ v ?_ (Or.inr (Or.inr ?_))
      · simp [hb, hu]
      · simp
    · simp only [runCall] at hcall
      unfold MyCssSelectorBuilder.pseudoElement at hcall
      split_ifs at hcall
      injection hcall with h3
      rw [← h3]
      refine id_order_error _ v ?_ (Or.inr (Or.inr ?_))
      · simp [hb, hu]
      · simp

/-- Witness for `id_spec` at concrete inputs. -/
theorem id_spec_witness :
    MyCssSelectorBuilder.new.id "main".toList = .ok ⟨"#main".toList, false⟩ ∧
    (MyCssSelectorBuilder.mk "#m".toList false).id "x".toList
      = .error duplicateSelectorError ∧
    (MyCssSelectorBuilder.mk ".c".toList false).id "x".toList = .error orderError :=
  ⟨(id_spec MyCssSelectorBuilder.new "main".toList).2.2.1
      (by decide) (by decide) (by decide) (by decide),
   (id_spec (MyCssSelectorBuilder.mk "#m".toList false) "x".toList).1 (by decide),
   (id_spec (MyCssSelectorBuilder.mk ".c".toList false) "x".toList).2.1
      (by decide) (Or.inl (by decide))⟩

/-- C5 counterexample: calling `id` right after a `class` call whose value
contains `#` fails with the duplicate error, not the order error, because
`id` first scans the whole buffer for `#`. -/
theorem id_after_class_not_order_error :
    (CssSelectorBuilder.«class» "a#".toList).bind (fun b => b.id "x".toList)
      = .error duplicateSelectorError ∧ duplicateSelectorError ≠ orderError :=
  ⟨rfl, by decide⟩

/-- C6: `pseudoElement(value)` raises the duplicate error iff the buffer
already contains `::`, and otherwise appends `::value`; in particular a
second `pseudoElement` call on the same builder always fails with the
duplicate error. -/
theorem pseudoElement_spec (b : MyCssSelectorBuilder) (v w : List Char) :
    ([':', ':'] <:+: b.str → b.pseudoElement v = .error duplicateSelectorError) ∧
    (¬([':', ':'] <:+: b.str) →
      b.pseudoElement v = .ok { b with str := b.str ++ ':' :: ':' :: v }) ∧
    (∀ b2, b.pseudoElement v = .ok b2 →
      b2.pseudoElement w = .error duplicateSelectorError) := by
  refine ⟨?_, ?_, ?_⟩
  · intro h
    simp [MyCssSelectorBuilder.pseudoElement, h]
  · intro h
    simp [MyCssSelectorBuilder.pseudoElement, h]
  · intro b2 h
    unfold MyCssSelectorBuilder.pseudoElement at h
    split_ifs at h
    injection h with h3
    rw [← h3]
    have hpair : [':', ':'] <:+: b.str ++ ':' :: ':' :: v := ⟨b.str, v, by simp⟩
    rw [MyCssSelectorBuilder.pseudoElement, if_pos hpair]

/-- Witness for `pseudoElement_spec` at concrete inputs. -/
theorem pseudoElement_spec_witness :
    MyCssSelectorBuilder.new.pseudoElement "after".toList = .ok ⟨"::after".toList, false⟩ ∧
    (MyCssSelectorBuilder.mk "::a".toList false).pseudoElement "b".toList
      = .error duplicateSelectorError :=
  ⟨(pseudoElement_spec MyCssSelectorBuilder.new "after".toList "b".toList).2.1 (by decide),
   (pseudoElement_spec (MyCssSelectorBuilder.mk "::a".toList false) "b".toList "b".toList).1
      (by decide)⟩

/-- C3: `combine` performs no validation of the combinator: for all builders
and any combinator string it appends `stringify(left) + ' ' + combinator +
' ' + stringify(right)` to the facade's own buffer, resetting both builders
and returning the facade; and the documented example evaluates to
`"div#main + table#data"`. -/
theorem combine_spec :
    (∀ (f : CssSelectorBuilder) (l : MyCssSelectorBuilder) (c : List Char)
        (r : MyCssSelectorBuilder),
      f.combine l c r =
        ({ str := f.str ++ l.str ++ ' ' :: c ++ ' ' :: r.str },
         { l with str := [] }, { r with str := [] })) ∧
    ((runChain MyCssSelectorBuilder.new
        [(Kind.element, "div".toList), (Kind.id, "main".toList)]).bind
      (fun l => (runChain MyCssSelectorBuilder.new
          [(Kind.element, "table".toList), (Kind.id, "data".toList)]).map
        (fun r => ((cssSelectorBuilder.combine l "+".toList r).1.stringify).1)))
      = .ok "div#main + table#data".toList := by
  constructor
  · intro f l c r
    rfl
  · rfl

/-- C8 counterexample: a `pseudoElement` call succeeds on a fresh builder yet
leaves the flag `hasElement` false — the flag does not track pseudo-element
tokens. -/
theorem pseudoElement_leaves_flag_false :
    (MyCssSelectorBuilder.new.pseudoElement "hover".toList).map (fun b => b.hasElement)
      = .ok false := rfl

/-- C8 (amended): the boolean flag (named `hasElement` in the code) is true
after any successful `element` call, but a successful `pseudoElement` call
leaves it unchanged: it tracks only whether a type/tag token has been
written, not pseudo-elements. -/
theorem hasElement_tracking (b : MyCssSelectorBuilder) (v : List Char) :
    (∀ b2, b.element v = .ok b2 → b2.hasElement = true) ∧
    (∀ b2, b.pseudoElement v = .ok b2 → b2.hasElement = b.hasElement) := by
  constructor
  · intro b2 h
    unfold MyCssSelectorBuilder.element at h
    split_ifs at h
    injection h with h3
    rw [← h3]
  · intro b2 h
    unfold MyCssSelectorBuilder.pseudoElement at h
    split_ifs at h
    injection h with h3
    rw [← h3]

/-- Witness for `hasElement_tracking` at concrete inputs. -/
theorem hasElement_tracking_witness :
    (MyCssSelectorBuilder.mk "div".toList true).hasElement = true ∧
    (MyCssSelectorBuilder.mk [':', ':', 'x'] false).hasElement = false :=
  ⟨(hasElement_tracking MyCssSelectorBuilder.new "div".toList).1 ⟨"div".toList, true⟩ rfl,
   (hasElement_tracking MyCssSelectorBuilder.new "x".toList).2 ⟨[':', ':', 'x'], false⟩ rfl⟩

/-- C9: `stringify()` resets only the buffer, not the element-seen flag: after
a successful `element` call, stringifying and then calling `element` again on
the same instance raises the duplicate error even though the buffer is empty
at that point. -/
theorem stringify_keeps_hasElement (b b2 : MyCssSelectorBuilder) (v w : List Char)
    (h : b.element v = .ok b2) :
    (b2.stringify).2.str = [] ∧
    (b2.stringify).2.element w = .error duplicateSelectorError := by
  have hb2 : b2.hasElement = true := by
    unfold MyCssSelectorBuilder.element at h
    split_ifs at h
    injection h with h3
    rw [← h3]
  exact ⟨rfl, by simp [MyCssSelectorBuilder.stringify, MyCssSelectorBuilder.element, hb2]⟩

/-- Witness for `stringify_keeps_hasElement` at concrete inputs. -/
theorem stringify_keeps_hasElement_witness :
    ((MyCssSelectorBuilder.mk "div".toList true).stringify).2.str = [] ∧
    ((MyCssSelectorBuilder.mk "div".toList true).stringify).2.element "p".toList
      = .error duplicateSelectorError :=
  stringify_keeps_hasElement MyCssSelectorBuilder.new ⟨"div".toList, true⟩
    "div".toList "p".toList rfl

theorem infix_extend {s l t : List Char} (h : s <:+: l) : s <:+: l ++ t :=
  h.trans (List.IsPrefix.isInfix (List.prefix_append l t))

theorem mem_append_cases {c : Char} {l t : List Char} (hm : c ∈ l ++ t) (hnt : c ∉ t) :
    c ∈ l := by
  rcases List.mem_append.mp hm with h | h
  · exact h
  · exact absurd h hnt

theorem noColonPair_of_not_mem : ∀ {l : List Char}, ':' ∉ l → NoColonPair l := by
  intro l
  induction l with
  | nil => intro _; exact List.chain'_nil
  | cons a t ih =>
    intro h
    unfold NoColonPair
    rw [List.chain'_cons']
    constructor
    · rintro y hy ⟨rfl, rfl⟩
      exact h (List.mem_cons_self _ _)
    · exact ih fun hm => h (List.mem_cons_of_mem a hm)

theorem colonTail_of_not_mem {l : List Char} (h : ':' ∉ l) : ColonTail l := by
  unfold ColonTail
  intro x hx hcon
  exact h (hcon ▸ List.mem_of_mem_getLast? hx)

theorem noColonPair_append {l t : List Char} (h1 : NoColonPair l) (h2 : ColonTail l)
    (h3 : NoColonPair t) : NoColonPair (l ++ t) := by
  unfold NoColonPair at *
  unfold ColonTail at h2
  rw [List.chain'_append]
  exact ⟨h1, h3, fun x hx y _ hcon => h2 x hx hcon.1⟩

theorem colonTail_append {l t : List Char} (h1 : ColonTail l) (h2 : ColonTail t) :
    ColonTail (l ++ t) := by
  unfold ColonTail at *
  intro x hx
  rcases eq_or_ne t [] with rfl | hne
  · rw [List.append_nil] at hx
    exact h1 x hx
  · rw [List.getLast?_append_of_ne_nil l hne] at hx
    exact h2 x hx

theorem not_pair_infix {l : List Char} (h : NoColonPair l) : ¬([':', ':'] <:+: l) := by
  rintro ⟨s, t, rfl⟩
  unfold NoColonPair at h
  rw [List.append_assoc, List.chain'_append] at h
  have h2 := h.2.1
  simp only [List.cons_append, List.nil_append] at h2
  rw [List.chain'_cons'] at h2
  exact h2.1 ':' rfl ⟨rfl, rfl⟩

theorem noColonPair_colon_cons {v : List Char} (hv : ':' ∉ v) :
    NoColonPair (':' :: v) := by
  unfold NoColonPair
  rw [List.chain'_cons']
  constructor
  · intro y hy hcon
    exact hv (hcon.2 ▸ List.mem_of_mem_head? hy)
  · exact noColonPair_of_not_mem hv

theorem colonTail_colon_cons {v : List Char} (hne : v ≠ []) (hv : ':' ∉ v) :
    ColonTail (':' :: v) := by
  unfold ColonTail
  intro x hx hcon
  rcases v with _ | ⟨a, t⟩
  · exact hne rfl
  · rw [List.getLast?_cons_cons] at hx
    exact hv (hcon ▸ List.mem_of_mem_getLast? hx)

theorem runChain_cons_ok {b b1 : MyCssSelectorBuilder} {c : Kind × List Char}
    {cs : List (Kind × List Char)} (h : runCall b c = .ok b1) :
    runChain b (c :: cs) = runChain b1 cs := by
  simp only [runChain, h]

theorem runChain_cons_err {b : MyCssSelectorBuilder} {c : Kind × List Char}
    {cs : List (Kind × List Char)} {e : String} (h : runCall b c = .error e) :
    runChain b (c :: cs) = .error e := by
  simp only [runChain, h]

/-- One successful call on a builder that tracks the kind list `ks` is a
canonical successor of every kind in `ks`, and the result tracks `ks ++ [k]`. -/
theorem runCall_ok_step {b b2 : MyCssSelectorBuilder} {ks : List Kind} {k : Kind}
    {v : List Char} (ht : Tracks b ks) (h : runCall b (k, v) = .ok b2) :
    (∀ x ∈ ks, canonStep x k) ∧ Tracks b2 (ks ++ [k]) := by
  obtain ⟨te, ti, tc, ta, tp, tpe⟩ := ht
  cases k
  case element =>
    simp only [runCall] at h
    unfold MyCssSelectorBuilder.element at h
    split_ifs at h with h1 h2
    injection h with h3
    subst h3
    have hstr : b.str = [] := not_not.mp h2
    constructor
    · intro x hx
      cases x
      · exact absurd (te hx) h1
      · exact absurd (hstr ▸ ti hx) (List.not_mem_nil _)
      · exact absurd (hstr ▸ tc hx) (List.not_mem_nil _)
      · exact absurd (hstr ▸ ta hx) (List.not_mem_nil _)
      · exact absurd (hstr ▸ tp hx) (List.not_mem_nil _)
      · have := hstr ▸ tpe hx
        rw [List.infix_nil] at this
        exact absurd this (by simp)
    · refine ⟨fun _ => rfl, ?_, ?_, ?_, ?_, ?_⟩
      · intro hx
        exact List.mem_append_left _ (ti (by simpa using hx))
      · intro hx
        exact List.mem_append_left _ (tc (by simpa using hx))
      · intro hx
        exact List.mem_append_left _ (ta (by simpa using hx))
      · intro hx
        exact List.mem_append_left _ (tp (by simpa using hx))
      · intro hx
        exact infix_extend (tpe (by simpa using hx))
  case id =>
    simp only [runCall] at h
    unfold MyCssSelectorBuilder.id at h
    split_ifs at h with h1 h2 h3 h4 h5
    injection h with h6
    subst h6
    constructor
    · intro x hx
      cases x
      · exact Or.inl (by decide)
      · exact absurd (ti hx) h1
      · exact absurd (tc hx) h2
      · exact absurd (ta hx) h3
      · exact absurd (tp hx) h4
      · exact absurd (colon_mem_of_pair (tpe hx)) h4
    · refine ⟨?_, fun _ => by simp, ?_, ?_, ?_, ?_⟩
      · intro hx
        exact te (by simpa using hx)
      · intro hx
        exact List.mem_append_left _ (tc (by simpa using hx))
      · intro hx
        exact List.mem_append_left _ (ta (by simpa using hx))
      · intro hx
        exact List.mem_append_left _ (tp (by simpa using hx))
      · intro hx
        exact infix_extend (tpe (by simpa using hx))
  case «class» =>
    simp only [runCall] at h
    unfold MyCssSelectorBuilder.«class» at h
    split_ifs at h with h1 h2 h3
    injection h with h6
    subst h6
    constructor
    · intro x hx
      cases x
      · exact Or.inl (by decide)
      · exact Or.inl (by decide)
      · exact Or.inr (by decide)
      · exact absurd (ta hx) h1
      · exact absurd (tp hx) h2
      · exact absurd (colon_mem_of_pair (tpe hx)) h2
    · refine ⟨?_, ?_, fun _ => by simp, ?_, ?_, ?_⟩
      · intro hx
        exact te (by simpa using hx)
      · intro hx
        exact List.mem_append_left _ (ti (by simpa using hx))
      · intro hx
        exact List.mem_append_left _ (ta (by simpa using hx))
      · intro hx
        exact List.mem_append_left _ (tp (by simpa using hx))
      · intro hx
        exact infix_extend (tpe (by simpa using hx))
  case attr =>
    simp only [runCall] at h
    unfold MyCssSelectorBuilder.attr at h
    split_ifs at h with h1
    injection h with h6
    subst h6
    rw [not_or] at h1
    constructor
    · intro x hx
      cases x
      · exact Or.inl (by decide)
      · exact Or.inl (by decide)
      · exact Or.inl (by decide)
      · exact Or.inr (by decide)
      · exact absurd (tp hx) h1.1
      · exact absurd (colon_mem_of_pair (tpe hx)) h1.1
    · refine ⟨?_, ?_, ?_, fun _ => by simp, ?_, ?_⟩
      · intro hx
        exact te (by simpa using hx)
      · intro hx
        exact List.mem_append_left _ (ti (by simpa using hx))
      · intro hx
        exact List.mem_append_left _ (tc (by simpa using hx))
      · intro hx
        exact List.mem_append_left _ (tp (by simpa using hx))
      · intro hx
        exact infix_extend (tpe (by simpa using hx))
  case pseudoClass =>
    simp only [runCall] at h
    unfold MyCssSelectorBuilder.pseudoClass at h
    split_ifs at h with h1
    injection h with h6
    subst h6
    constructor
    · intro x hx
      cases x
      · exact Or.inl (by decide)
      · exact Or.inl (by decide)
      · exact Or.inl (by decide)
      · exact Or.inl (by decide)
      · exact Or.inr (by decide)
      · exact absurd (tpe hx) h1
    · refine ⟨?_, ?_, ?_, ?_, fun _ => by simp, ?_⟩
      · intro hx
        exact te (by simpa using hx)
      · intro hx
        exact List.mem_append_left _ (ti (by simpa using hx))
      · intro hx
        exact List.mem_append_left _ (tc (by simpa using hx))
      · intro hx
        exact List.mem_append_left _ (ta (by simpa using hx))
      · intro hx
        exact infix_extend (tpe (by simpa using hx))
  case pseudoElement =>
    simp only [runCall] at h
    unfold MyCssSelectorBuilder.pseudoElement at h
    split_ifs at h with h1
    injection h with h6
    subst h6
    constructor
    · intro x hx
      cases x
      · exact Or.inl (by decide)
      · exact Or.inl (by decide)
      · exact Or.inl (by decide)
      · exact Or.inl (by decide)
      · exact Or.inl (by decide)
      · exact absurd (tpe hx) h1
    · refine ⟨?_, ?_, ?_, ?_, ?_, fun _ => ⟨b.str, v, by simp⟩⟩
      · intro hx
        exact te (by simpa using hx)
      · intro hx
        exact List.mem_append_left _ (ti (by simpa using hx))
      · intro hx
        exact List.mem_append_left _ (tc (by simpa using hx))
      · intro hx
        exact List.mem_append_left _ (ta (by simpa using hx))
      · intro hx
        exact List.mem_append_left _ (tp (by simpa using hx))

/-- A chain that runs to success from a builder tracking `ks0` yields a kind
list that is pairwise canonical and compatible with `ks0`. -/
theorem runChain_ok_tracks : ∀ (cs : List (Kind × List Char)) (b0 : MyCssSelectorBuilder)
    (ks0 : List Kind) (b : MyCssSelectorBuilder),
    Tracks b0 ks0 → runChain b0 cs = .ok b →
    (∀ x ∈ ks0, ∀ y ∈ cs.map Prod.fst, canonStep x y) ∧
    (cs.map Prod.fst).Pairwise canonStep ∧ Tracks b (ks0 ++ cs.map Prod.fst) := by
  intro cs
  induction cs with
  | nil =>
    intro b0 ks0 b ht h
    simp only [runChain] at h
    injection h with h1
    subst h1
    refine ⟨by simp, by simp, ?_⟩
    simpa using ht
  | cons c cs ih =>
    intro b0 ks0 b ht h
    obtain ⟨k, v⟩ := c
    cases hcall : runCall b0 (k, v) with
    | error e =>
      rw [runChain_cons_err hcall] at h
      exact Except.noConfusion h
    | ok b1 =>
      rw [runChain_cons_ok hcall] at h
      obtain ⟨hstep, ht1⟩ := runCall_ok_step ht hcall
      obtain ⟨ih1, ih2, ih3⟩ := ih b1 (ks0 ++ [k]) b ht1 h
      refine ⟨?_, ?_, ?_⟩
      · intro x hx y hy
        simp only [List.map_cons, List.mem_cons] at hy
        rcases hy with rfl | hy
        · exact hstep x hx
        · exact ih1 x (List.mem_append_left _ hx) y hy
      · rw [List.map_cons, List.pairwise_cons]
        exact ⟨fun y hy => ih1 k (List.mem_append_right _ (by simp)) y hy, ih2⟩
      · rw [List.append_assoc] at ih3
        simpa using ih3

/-- C2: if every call of a chain on one fresh builder instance succeeds, the
kinds of the calls appear in the canonical order element, id, class(es),
attribute(s), pseudo-class(es), pseudo-element (`Pairwise canonStep`: every
earlier call's kind is either a strictly earlier stage than every later one,
or the same repeatable stage — hence element, id and pseudo-element occur at
most once). -/
theorem chain_ok_canonical (cs : List (Kind × List Char)) (b : MyCssSelectorBuilder)
    (h : runChain MyCssSelectorBuilder.new cs = .ok b) :
    (cs.map Prod.fst).Pairwise canonStep := by
  have htracks : Tracks MyCssSelectorBuilder.new [] := by
    unfold Tracks
    refine ⟨?_, ?_, ?_, ?_, ?_, ?_⟩ <;> intro hx <;> simp at hx
  exact (runChain_ok_tracks cs MyCssSelectorBuilder.new [] b htracks h).2.1

/-- Witness for `chain_ok_canonical` at a concrete successful chain. -/
theorem chain_ok_canonical_witness :
    ([Kind.element, Kind.id].Pairwise canonStep) :=
  chain_ok_canonical [(Kind.element, "div".toList), (Kind.id, "main".toList)]
    ⟨"div#main".toList, true⟩ rfl

theorem not_mem_cons_of {c a : Char} {v : List Char} (h1 : c ≠ a) (h2 : c ∉ v) :
    c ∉ a :: v := by
  intro hm
  rcases List.mem_cons.mp hm with hm | hm
  · exact h1 hm
  · exact h2 hm

theorem not_mem_append_of {c : Char} {l t : List Char} (h1 : c ∉ l) (h2 : c ∉ t) :
    c ∉ l ++ t := fun hm => (List.mem_append.mp hm).elim h1 h2

theorem render_cons (c : Kind × List Char) (cs : List (Kind × List Char)) :
    render (c :: cs) = renderToken c.1 c.2 ++ render cs := by
  simp [render]

/-- One call of a kind that is a canonical successor of everything run so far,
with a clean value, succeeds and preserves the content bookkeeping. -/
theorem runCall_clean_step {b : MyCssSelectorBuilder} {ks : List Kind} {k : Kind}
    {v : List Char} (hv : CleanValue v) (hco : ContentOK b ks)
    (hstep : ∀ x ∈ ks, canonStep x k) :
    ∃ b2, runCall b (k, v) = .ok b2 ∧ b2.str = b.str ++ renderToken k v ∧
      ContentOK b2 (ks ++ [k]) := by
  obtain ⟨hvne, hv1, hv2, hv3, hv4⟩ := hv
  obtain ⟨ce, cne, ci, cc, ca, cp, cpe⟩ := hco
  cases k
  case element =>
    have hnone : ∀ x : Kind, ¬canonStep x Kind.element := by
      intro x
      cases x <;> decide
    have hks : ks = [] := by
      cases ks with
      | nil => rfl
      | cons a t => exact absurd (hstep a (by simp)) (hnone a)
    have hstr : b.str = [] := by
      by_contra hs
      exact cne hs hks
    have hflag : ¬(b.hasElement = true) := fun hbe => List.not_mem_nil _ (hks ▸ ce hbe)
    subst hks
    refine ⟨{ b with hasElement := true, str := b.str ++ v }, ?_, rfl, ?_⟩
    · simp only [runCall]
      unfold MyCssSelectorBuilder.element
      rw [if_neg hflag, if_neg (by simp [hstr])]
    · unfold ContentOK
      refine ⟨fun _ => by simp, fun _ => by simp, ?_, ?_, ?_, ?_, ?_⟩
      · intro hm
        rw [hstr] at hm
        exact absurd (by simpa using hm) hv1
      · intro hm
        rw [hstr] at hm
        exact absurd (by simpa using hm) hv2
      · intro hm
        rw [hstr] at hm
        exact absurd (by simpa using hm) hv3
      · intro hm
        rw [hstr] at hm
        exact absurd (by simpa using hm) hv4
      · intro _
        rw [hstr]
        simp only [List.nil_append]
        exact ⟨noColonPair_of_not_mem hv4, colonTail_of_not_mem hv4⟩
  case id =>
    have h1 : '#' ∉ b.str := fun hm => absurd (hstep _ (ci hm)) (by decide)
    have h2 : '.' ∉ b.str := fun hm => absurd (hstep _ (cc hm)) (by decide)
    have h3 : '[' ∉ b.str := fun hm => absurd (hstep _ (ca hm)) (by decide)
    have h4 : ':' ∉ b.str := fun hm => (cp hm).elim
      (fun hp => absurd (hstep _ hp) (by decide))
      (fun hp => absurd (hstep _ hp) (by decide))
    have h5 : ¬([':', ':'] <:+: b.str) := fun hin => h4 (colon_mem_of_pair hin)
    refine ⟨{ b with str := b.str ++ '#' :: v }, ?_, rfl, ?_⟩
    · simp only [runCall]
      unfold MyCssSelectorBuilder.id
      rw [if_neg h1, if_neg h2, if_neg h3, if_neg h4, if_neg h5]
    · unfold ContentOK
      have htok : ':' ∉ '#' :: v := not_mem_cons_of (by decide) hv4
      refine ⟨?_, fun _ => by simp, fun _ => by simp, ?_, ?_, ?_, ?_⟩
      · exact fun hbe => List.mem_append_left _ (ce hbe)
      · exact fun hm => List.mem_append_left _
          (cc (mem_append_cases hm (not_mem_cons_of (by decide) hv2)))
      · exact fun hm => List.mem_append_left _
          (ca (mem_append_cases hm (not_mem_cons_of (by decide) hv3)))
      · exact fun hm => (cp (mem_append_cases hm htok)).imp
          (List.mem_append_left _) (List.mem_append_left _)
      · intro hpe
        obtain ⟨ncp, ct⟩ := cpe fun hp => hpe (List.mem_append_left _ hp)
        exact ⟨noColonPair_append ncp ct (noColonPair_of_not_mem htok),
               colonTail_append ct (colonTail_of_not_mem htok)⟩
  case «class» =>
    have h1 : '[' ∉ b.str := fun hm => absurd (hstep _ (ca hm)) (by decide)
    have h2 : ':' ∉ b.str := fun hm => (cp hm).elim
      (fun hp => absurd (hstep _ hp) (by decide))
      (fun hp => absurd (hstep _ hp) (by decide))
    have h3 : ¬([':', ':'] <:+: b.str) := fun hin => h2 (colon_mem_of_pair hin)
    refine ⟨{ b with str := b.str ++ '.' :: v }, ?_, rfl, ?_⟩
    · simp only [runCall]
      unfold MyCssSelectorBuilder.«class»
      rw [if_neg h1, if_neg h2, if_neg h3]
    · unfold ContentOK
      have htok : ':' ∉ '.' :: v := not_mem_cons_of (by decide) hv4
      refine ⟨?_, fun _ => by simp, ?_, fun _ => by simp, ?_, ?_, ?_⟩
      · exact fun hbe => List.mem_append_left _ (ce hbe)
      · exact fun hm => List.mem_append_left _
          (ci (mem_append_cases hm (not_mem_cons_of (by decide) hv1)))
      · exact fun hm => List.mem_append_left _
          (ca (mem_append_cases hm (not_mem_cons_of (by decide) hv3)))
      · exact fun hm => (cp (mem_append_cases hm htok)).imp
          (List.mem_append_left _) (List.mem_append_left _)
      · intro hpe
        obtain ⟨ncp, ct⟩ := cpe fun hp => hpe (List.mem_append_left _ hp)
        exact ⟨noColonPair_append ncp ct (noColonPair_of_not_mem htok),
               colonTail_append ct (colonTail_of_not_mem htok)⟩
  case attr =>
    have h2 : ':' ∉ b.str := fun hm => (cp hm).elim
      (fun hp => absurd (hstep _ hp) (by decide))
      (fun hp => absurd (hstep _ hp) (by decide))
    have h3 : ¬([':', ':'] <:+: b.str) := fun hin => h2 (colon_mem_of_pair hin)
    refine ⟨{ b with str := b.str ++ '[' :: (v ++ [']']) }, ?_, rfl, ?_⟩
    · simp only [runCall]
      unfold MyCssSelectorBuilder.attr
      rw [if_neg (not_or.mpr ⟨h2, h3⟩)]
    · unfold ContentOK
      have htok : ':' ∉ '[' :: (v ++ [']']) :=
        not_mem_cons_of (by decide) (not_mem_append_of hv4 (by decide))
      refine ⟨?_, fun _ => by simp, ?_, ?_, fun _ => by simp, ?_, ?_⟩
      · exact fun hbe => List.mem_append_left _ (ce hbe)
      · exact fun hm => List.mem_append_left _ (ci (mem_append_cases hm
          (not_mem_cons_of (by decide) (not_mem_append_of hv1 (by decide)))))
      · exact fun hm => List.mem_append_left _ (cc (mem_append_cases hm
          (not_mem_cons_of (by decide) (not_mem_append_of hv2 (by decide)))))
      · exact fun hm => (cp (mem_append_cases hm htok)).imp
          (List.mem_append_left _) (List.mem_append_left _)
      · intro hpe
        obtain ⟨ncp, ct⟩ := cpe fun hp => hpe (List.mem_append_left _ hp)
        exact ⟨noColonPair_append ncp ct (noColonPair_of_not_mem htok),
               colonTail_append ct (colonTail_of_not_mem htok)⟩
  case pseudoClass =>
    have hpe0 : Kind.pseudoElement ∉ ks := fun hp => absurd (hstep _ hp) (by decide)
    obtain ⟨ncp0, ct0⟩ := cpe hpe0
    have h1 : ¬([':', ':'] <:+: b.str) := not_pair_infix ncp0
    refine ⟨{ b with str := b.str ++ ':' :: v }, ?_, rfl, ?_⟩
    · simp only [runCall]
      unfold MyCssSelectorBuilder.pseudoClass
      rw [if_neg h1]
    · unfold ContentOK
      refine ⟨?_, fun _ => by simp, ?_, ?_, ?_, fun _ => Or.inl (by simp), ?_⟩
      · exact fun hbe => List.mem_append_left _ (ce hbe)
      · exact fun hm => List.mem_append_left _
          (ci (mem_append_cases hm (not_mem_cons_of (by decide) hv1)))
      · exact fun hm => List.mem_append_left _
          (cc (mem_append_cases hm (not_mem_cons_of (by decide) hv2)))
      · exact fun hm => List.mem_append_left _
          (ca (mem_append_cases hm (not_mem_cons_of (by decide) hv3)))
      · intro hpe
        obtain ⟨ncp, ct⟩ := cpe fun hp => hpe (List.mem_append_left _ hp)
        exact ⟨noColonPair_append ncp ct (noColonPair_colon_cons hv4),
               colonTail_append ct (colonTail_colon_cons hvne hv4)⟩
  case pseudoElement =>
    have hpe0 : Kind.pseudoElement ∉ ks := fun hp => absurd (hstep _ hp) (by decide)
    obtain ⟨ncp0, ct0⟩ := cpe hpe0
    have h1 : ¬([':', ':'] <:+: b.str) := not_pair_infix ncp0
    refine ⟨{ b with str := b.str ++ ':' :: ':' :: v }, ?_, rfl, ?_⟩
    · simp only [runCall]
      unfold MyCssSelectorBuilder.pseudoElement
      rw [if_neg h1]
    · unfold ContentOK
      refine ⟨?_, fun _ => by simp, ?_, ?_, ?_, fun _ => Or.inr (by simp), ?_⟩
      · exact fun hbe => List.mem_append_left _ (ce hbe)
      · exact fun hm => List.mem_append_left _ (ci (mem_append_cases hm
          (not_mem_cons_of (by decide) (not_mem_cons_of (by decide) hv1))))
      · exact fun hm => List.mem_append_left _ (cc (mem_append_cases hm
          (not_mem_cons_of (by decide) (not_mem_cons_of (by decide) hv2))))
      · exact fun hm => List.mem_append_left _ (ca (mem_append_cases hm
          (not_mem_cons_of (by decide) (not_mem_cons_of (by decide) hv3))))
      · exact fun hpe => (hpe (List.mem_append_right _ (by simp))).elim

/-- A clean chain whose kinds are pairwise canonical and canonical successors
of everything run so far succeeds and appends exactly its rendering. -/
theorem runChain_clean_canonical : ∀ (cs : List (Kind × List Char))
    (b0 : MyCssSelectorBuilder) (ks0 : List Kind),
    (∀ c ∈ cs, CleanValue c.2) → ContentOK b0 ks0 →
    (∀ x ∈ ks0, ∀ y ∈ cs.map Prod.fst, canonStep x y) →
    (cs.map Prod.fst).Pairwise canonStep →
    ∃ b, runChain b0 cs = .ok b ∧ b.str = b0.str ++ render cs ∧
      ContentOK b (ks0 ++ cs.map Prod.fst) := by
  intro cs
  induction cs with
  | nil =>
    intro b0 ks0 _ hco _ _
    exact ⟨b0, rfl, by simp [render], by simpa using hco⟩
  | cons c cs ih =>
    intro b0 ks0 hclean hco hcompat hpair
    obtain ⟨k, v⟩ := c
    rw [List.map_cons, List.pairwise_cons] at hpair
    obtain ⟨b1, hcall, hstr1, hco1⟩ := runCall_clean_step
      (hclean (k, v) (List.mem_cons_self _ _)) hco
      (fun x hx => hcompat x hx k (by rw [List.map_cons]; exact List.mem_cons_self _ _))
    have hcompat1 : ∀ x ∈ ks0 ++ [k], ∀ y ∈ cs.map Prod.fst, canonStep x y := by
      intro x hx y hy
      rcases List.mem_append.mp hx with hx | hx
      · exact hcompat x hx y (by rw [List.map_cons]; exact List.mem_cons_of_mem _ hy)
      · have hxk : x = k := by simpa using hx
        subst hxk
        exact hpair.1 y hy
    obtain ⟨b, hrun, hstr, hcofin⟩ := ih b1 (ks0 ++ [k])
      (fun c hc => hclean c (List.mem_cons_of_mem _ hc)) hco1 hcompat1 hpair.2
    refine ⟨b, ?_, ?_, ?_⟩
    · rw [runChain_cons_ok hcall]
      exact hrun
    · rw [hstr, hstr1, render_cons, List.append_assoc]
    · rw [List.append_assoc] at hcofin
      simpa using hcofin

/-- C1 (amended): for every chain of builder calls starting from a fresh
builder whose kinds respect the canonical sequence (`Pairwise canonStep`:
element, id, class(es), attribute(s), pseudo-class(es), pseudo-element, with
element, id and pseudo-element each at most once) and whose string values are
non-empty and free of the marker characters `#`, `.`, `[`, `:`, the chain
raises no error and `stringify()` returns exactly the concatenation, in call
order, of: the element value verbatim, `#`+value for id, `.`+value for each
class, `[`+value+`]` for each attr, `:`+value for each pseudoClass, and
`::`+value for the pseudoElement.  (For unrestricted values the claim fails;
see the counterexample.) -/
theorem clean_canonical_chain_stringify (cs : List (Kind × List Char))
    (hclean : ∀ c ∈ cs, CleanValue c.2)
    (hcanon : (cs.map Prod.fst).Pairwise canonStep) :
    (runChain MyCssSelectorBuilder.new cs).map (fun b => (b.stringify).1)
      = .ok (render cs) := by
  have hco : ContentOK MyCssSelectorBuilder.new [] := by
    unfold ContentOK
    refine ⟨?_, ?_, ?_, ?_, ?_, ?_, ?_⟩
    · intro h
      exact absurd h (by decide)
    · intro h
      exact absurd h (by decide)
    · intro h
      exact absurd h (by decide)
    · intro h
      exact absurd h (by decide)
    · intro h
      exact absurd h (by decide)
    · intro h
      exact absurd h (by decide)
    · refine fun _ => ⟨List.chain'_nil, fun x hx => ?_⟩
      simp [MyCssSelectorBuilder.new] at hx
  obtain ⟨b, hrun, hstr, _⟩ := runChain_clean_canonical cs MyCssSelectorBuilder.new []
    hclean hco (by simp) hcanon
  rw [hrun]
  show Except.ok b.str = Except.ok (render cs)
  rw [hstr]
  rfl

/-- Witness for `clean_canonical_chain_stringify` at a concrete full chain. -/
theorem clean_canonical_chain_stringify_witness :
    (runChain MyCssSelectorBuilder.new
      [(Kind.element, "a".toList), (Kind.id, "b".toList), (Kind.«class», "c".toList),
       (Kind.«class», "d".toList), (Kind.attr, "e".toList),
       (Kind.pseudoClass, "f".toList), (Kind.pseudoElement, "g".toList)]).map
      (fun b => (b.stringify).1) = .ok "a#b.c.d[e]:f::g".toList := by
  have h := clean_canonical_chain_stringify
    [(Kind.element, "a".toList), (Kind.id, "b".toList), (Kind.«class», "c".toList),
     (Kind.«class», "d".toList), (Kind.attr, "e".toList),
     (Kind.pseudoClass, "f".toList), (Kind.pseudoElement, "g".toList)]
    (by decide) (by decide)
  rw [h]
  rfl

/-- C1 counterexample: the chain element("a:b") then class("c") respects the
canonical kind sequence, yet the chain raises the order error, because the
`:` inside the element value trips the substring guard of `class`. -/
theorem canonical_chain_can_error :
    ([Kind.element, Kind.«class»].Pairwise canonStep) ∧
    runChain MyCssSelectorBuilder.new
      [(Kind.element, "a:b".toList), (Kind.«class», "c".toList)] = .error orderError :=
  ⟨by decide, rfl⟩

/-- C10: `new Rectangle(w, h)` stores `w` in `width` and `h` in `height`, and
`getArea()` returns their product (it reads the fields without modifying
them: it is a pure function of the state). -/
theorem rectangle_spec (w h : Int) :
    (Rectangle.new w h).width = w ∧ (Rectangle.new w h).height = h ∧
    (Rectangle.new w h).getArea = w * h := by
  refine ⟨rfl, rfl, ?_⟩
  show h * w = w * h
  exact mul_comm h w
